import Mathlib

/-!
Verification development for the `role_aggr` job-listing aggregation engine.

Shallow embedding of the parts of the code base that the checked properties
concern:

* `scraper/common/utils.py` and `scraper/platforms/workday/parser.py`
  (location / job-id cleanup),
* `scraper/common/processing.py` (`filter_job_data`, `process_single_job`,
  `process_job_details_parallel`) and `scraper/main.py` (per-board pipeline),
* `scraper/platforms/workday/details.py` and
  `scraper/platforms/workday/crawler.py` (detail fetch),
* `scraper/common/intelligent_parser.py` (`_make_llm_request` retry loop),
* `database/model.py` and `database/functions.py` (`update_job_listings`),
* the semaphore discipline of the parallel detail-fetch phase
  (`scraper/common/config.py` `JOB_DETAIL_CONCURRENCY`).

Python strings are modelled as `String` / `List Char`; dictionaries with a
known key set as structures with `Option` fields (a `none` field stands for
an absent key); browser and LLM I/O as explicit outcome parameters.
-/

namespace RoleAggr

/-- Characters stripped by Python's `str.strip()` and matched by `\s`
(ASCII range). -/
def pyIsSpace (c : Char) : Bool :=
  c = ' ' || c = '\t' || c = '\n' || c = '\r' || c = '\x0b' || c = '\x0c'

/-- Python `str.strip()`: drop whitespace from both ends. -/
def pyStrip (l : List Char) : List Char :=
  ((l.dropWhile pyIsSpace).reverse.dropWhile pyIsSpace).reverse

/-- Python `str.lower()` (ASCII case folding is all the sources rely on). -/
def pyLower (s : String) : String :=
  String.mk (s.data.map Char.toLower)

/-- Case-insensitive match of a literal pattern at the head of a character
list; returns the remainder of the input on success.  Models a literal
fragment of an `IGNORECASE` regular expression anchored with `^`. -/
def matchLiteralCI : List Char → List Char → Option (List Char)
  | [], l => some l
  | _ :: _, [] => none
  | p :: ps, c :: cs => if c.toLower = p.toLower then matchLiteralCI ps cs else none

/-- The pattern letters of the word the location regexes strip. -/
def locationsPat : List Char := "locations".data

namespace Utils

/-- `re.sub(r'^locations\s*', '', s, flags=re.IGNORECASE)` from
`scraper/common/utils.py` (the substituted string when the pattern matches,
the input unchanged otherwise). -/
def stripLocationsSub (l : List Char) : List Char :=
  match matchLiteralCI locationsPat l with
  | none => l
  | some r => r.dropWhile pyIsSpace

/-- `parse_location` from `scraper/common/utils.py`: remove a leading
`locations` word plus following whitespace (case-insensitively) and strip. -/
def parse_location (s : String) : String :=
  if s = "" then ""
  else String.mk (pyStrip (stripLocationsSub s.data))

end Utils

namespace WorkdayParser

/-- `re.sub(r'^\s*locations\s*:?\s*', '', s, flags=re.IGNORECASE)` from
`WorkdayParser.parse_location` (`scraper/platforms/workday/parser.py`). -/
def stripLocationsSub (l : List Char) : List Char :=
  match matchLiteralCI locationsPat (l.dropWhile pyIsSpace) with
  | none => l
  | some r =>
      let r1 := r.dropWhile pyIsSpace
      match r1 with
      | ':' :: t => t.dropWhile pyIsSpace
      | _ => r1

/-- `WorkdayParser.parse_location`: strip a leading (possibly
whitespace-preceded) `locations` word, optional colon and whitespace, then
trim. -/
def parse_location (s : String) : String :=
  if s = "" then ""
  else String.mk (pyStrip (stripLocationsSub s.data))

/-- The pattern letters of `job`. -/
def jobPat : List Char := "job".data

/-- The pattern letters of `id`. -/
def idPat : List Char := "id".data

/-- The pattern letters of `req`. -/
def reqPat : List Char := "req".data

/-- `re.sub(r'^job\s*id\s*:?\s*', '', s, flags=re.IGNORECASE)`. -/
def stripJobIdTag (l : List Char) : List Char :=
  match matchLiteralCI jobPat l with
  | none => l
  | some r =>
      match matchLiteralCI idPat (r.dropWhile pyIsSpace) with
      | none => l
      | some r2 =>
          let r3 := r2.dropWhile pyIsSpace
          match r3 with
          | ':' :: t => t.dropWhile pyIsSpace
          | _ => r3

/-- `re.sub(r'^req-?', '', s, flags=re.IGNORECASE)`. -/
def stripReqTag (l : List Char) : List Char :=
  match matchLiteralCI reqPat l with
  | none => l
  | some r =>
      match r with
      | '-' :: t => t
      | _ => r

/-- `WorkdayParser.parse_job_id`: strip, remove a `job id:` tag and a
`req-` tag (both case-insensitive), strip again. -/
def parse_job_id (s : String) : String :=
  if s = "" then ""
  else String.mk (pyStrip (stripReqTag (stripJobIdTag (pyStrip s.data))))

end WorkdayParser

/-- Structured location data (`{city, country, region, confidence}` dict)
produced by the intelligent parser. -/
structure LocIntel where
  city : String
  country : String
  region : String
  confidence : ℚ
deriving DecidableEq

/-- An in-memory job dictionary.  The fields are the dictionary keys the
pipeline reads or writes (`crawler.py` summary keys, `main.py` enrichment,
`details.py` detail keys, `processing.py` merge, `functions.py` reads);
`none` models an absent key. -/
structure JobRec where
  title : Option String
  detail_url : Option String
  location_raw : Option String
  location_parsed : Option String
  date_posted_raw : Option String
  date_posted_parsed : Option String
  job_board_url : Option String
  url : Option String
  description : Option String
  job_id : Option String
  detail_page_title : Option String
  company_name : Option String
  location_parsed_intelligent : Option LocIntel
deriving DecidableEq

/-- The empty dictionary. -/
def JobRec.empty : JobRec :=
  ⟨none, none, none, none, none, none, none, none, none, none, none, none, none⟩

/-- Python truthiness of `d.get(key)` for a string-valued key: present and
non-empty. -/
def truthy (o : Option String) : Bool :=
  match o with
  | none => false
  | some s => s ≠ ""

/-- The marker checked by `filter_job_data`. -/
def oldMarker : List Char := "posted 30+ days ago".data

/-- Whether `pat` occurs at the head of `l`. -/
def startsWithList : List Char → List Char → Bool
  | [], _ => true
  | _ :: _, [] => false
  | p :: ps, c :: cs => p = c && startsWithList ps cs

/-- Python's `pat in l` substring test. -/
def containsSub (pat : List Char) : List Char → Bool
  | [] => pat.isEmpty
  | c :: rest => startsWithList pat (c :: rest) || containsSub pat rest

/-- `"posted 30+ days ago" in job.get("date_posted_raw", "").lower()`
(`processing.py`, `filter_job_data`). -/
def postedOld (j : JobRec) : Bool :=
  containsSub oldMarker (pyLower (j.date_posted_raw.getD "")).data

/-- The loop of `filter_job_data` (`scraper/common/processing.py`):
`seen` is the `seen_urls` set (`job.get("url")` values, so `none` for a
record without the key). -/
def filterJobDataAux (seen : List (Option String)) : List JobRec → List JobRec
  | [] => []
  | j :: rest =>
    if j.url ∈ seen then filterJobDataAux seen rest
    else
      if postedOld j then filterJobDataAux (j.url :: seen) rest
      else j :: filterJobDataAux (j.url :: seen) rest

/-- `filter_job_data`: drop URL duplicates (first occurrence wins; the URL is
recorded as seen before the date check) and records whose raw date contains
`posted 30+ days ago`. -/
def filter_job_data (job_data_list : List JobRec) : List JobRec :=
  filterJobDataAux [] job_data_list

/-- Spec-side dedup: keep the first record for each `url` value, in order,
with no date condition.  Used to state the dedup-preservation property. -/
def keepFirstByUrl (seen : List (Option String)) : List JobRec → List JobRec
  | [] => []
  | j :: rest =>
    if j.url ∈ seen then keepFirstByUrl seen rest
    else j :: keepFirstByUrl (j.url :: seen) rest

namespace Workday

/-- Outcome of the navigation and element queries performed by
`fetch_job_details` (`platforms/workday/details.py`) for one attempt:
either `page.goto`/`wait_for_selector` raises a timeout, some other
exception escapes, or the page loads and each optional element query
yields text (`none` models a missing element). -/
inductive NavOutcome where
  | timeout
  | error
  | loaded (title desc jobId : Option String)
deriving DecidableEq

/-- The detail dictionary built by `fetch_job_details`; the four keys are
always present. -/
structure DetailData where
  url : String
  description : String
  job_id : String
  detail_page_title : String
deriving DecidableEq

/-- `fetch_job_details` (`platforms/workday/details.py`): starts from
placeholder values, fills in whatever the page yields, and swallows
timeouts and other errors, returning the placeholders in that case.  It
never raises. -/
def fetch_job_details (job_url : String) (nav : NavOutcome) : DetailData :=
  let base : DetailData := ⟨job_url, "N/A", "N/A", "N/A"⟩
  match nav with
  | .timeout => base
  | .error => base
  | .loaded t d j =>
      { base with
        detail_page_title := t.getD base.detail_page_title
        description := d.getD base.description
        job_id := (j.map (fun s => String.mk (pyStrip s.data))).getD base.job_id }

/-- `WorkdayScraper.fetch_job_details` (`platforms/workday/crawler.py`):
delegates to `fetch_job_details` and, when the resulting `job_id` is
truthy, cleans it with `WorkdayParser.parse_job_id`. -/
def scraperFetchJobDetails (job_url : String) (nav : NavOutcome) : DetailData :=
  let d := fetch_job_details job_url nav
  if d.job_id ≠ "" then { d with job_id := WorkdayParser.parse_job_id d.job_id }
  else d

end Workday

/-- What one iteration of the retry loop of `process_single_job`
(`scraper/common/processing.py`) observes: context/page creation may raise a
Playwright timeout, a target-closed error, another Playwright or generic
error — or succeed, after which `scraper.fetch_job_details` runs (and,
for the Workday scraper, never raises). -/
inductive AttemptOutcome where
  | ctxTimeout
  | ctxTargetClosed
  | ctxOtherError
  | fetched (nav : Workday.NavOutcome)
deriving DecidableEq

/-- `{**job_summary, **detail_data}` followed by
`full_job_info["company_name"] = company_name`. -/
def mergeDetail (s : JobRec) (d : Workday.DetailData) (company : String) : JobRec :=
  { s with
    url := some d.url
    description := some d.description
    job_id := some d.job_id
    detail_page_title := some d.detail_page_title
    company_name := some company }

/-- The `for attempt in range(attempts)` loop of `process_single_job`:
`remaining` counts the attempts left (3 initially); `attempt` indexes the
outcome environment.  A successful fetch returns the merged record; a
target-closed error aborts without retrying; a timeout or other error
retries unless this was the last attempt. -/
def processAttempts (env : Nat → AttemptOutcome) (s : JobRec) (company jobUrl : String) :
    Nat → Nat → Option JobRec
  | _, 0 => none
  | attempt, r + 1 =>
    match env attempt with
    | .fetched nav => some (mergeDetail s (Workday.scraperFetchJobDetails jobUrl nav) company)
    | .ctxTargetClosed => none
    | .ctxTimeout =>
        if r = 0 then none else processAttempts env s company jobUrl (attempt + 1) r
    | .ctxOtherError =>
        if r = 0 then none else processAttempts env s company jobUrl (attempt + 1) r

/-- `process_single_job` (`scraper/common/processing.py`): skip records with
no usable detail URL, otherwise run up to 3 attempts. -/
def process_single_job (env : Nat → AttemptOutcome) (s : JobRec) (company : String) :
    Option JobRec :=
  match s.detail_url with
  | none => none
  | some u => if u = "" ∨ u = "N/A" then none else processAttempts env s company u 0 3

/-- Python truthiness of the `detail_url` filter in
`process_job_details_parallel`: key present, non-empty, not `"N/A"`. -/
def hasValidDetailUrl (s : JobRec) : Bool :=
  match s.detail_url with
  | none => false
  | some u => u ≠ "" && u ≠ "N/A"

/-- `process_job_details_parallel` (`scraper/common/processing.py`,
`asyncio.gather` path): filter summaries with a valid detail URL, run
`process_single_job` for each (task `i` observing environment `envs i`),
and keep the non-`None` results in task order. -/
def process_job_details_parallel (envs : Nat → Nat → AttemptOutcome) (company : String)
    (job_summaries : List JobRec) : List JobRec :=
  let valid := job_summaries.filter hasValidDetailUrl
  valid.enum.filterMap (fun p => process_single_job (envs p.1) p.2 company)

/-- The per-board pipeline of `scraper` (`scraper/main.py`) after summary
extraction: enrich each summary with `job_board_url`, fetch details in
parallel, then filter.  The summaries are an input (they come from browser
I/O); `envs` gives each detail task's attempt outcomes. -/
def scraperPipeline (envs : Nat → Nat → AttemptOutcome) (company targetUrl : String)
    (job_summaries : List JobRec) : List JobRec :=
  let enriched := job_summaries.map (fun s => { s with job_board_url := some targetUrl })
  let all_job_data := process_job_details_parallel envs company enriched
  filter_job_data all_job_data

namespace IntelligentParser

/-- What one LLM request inside `_make_llm_request`
(`scraper/common/intelligent_parser.py`) can produce:

* `exn` — the request itself raises (network failure, timeout, ...);
* `emptyText` — an empty message (the code raises `ValueError`, caught by
  the generic handler);
* `badJson` — text that `json.loads` rejects (`json.JSONDecodeError`);
* `invalidFormat` — valid JSON that is not a dict/list with the four
  required keys (the code only logs and falls through);
* `valid` — a dict (or list of dicts) with `city`, `country`, `region`
  and `confidence`. -/
inductive LLMResponse where
  | exn
  | emptyText
  | badJson
  | invalidFormat
  | valid
deriving DecidableEq

/-- `attempt` and `backoff` of the `while attempt < max_retries` loop. -/
structure LoopState where
  attempt : Nat
  backoff : Nat
deriving DecidableEq

/-- `max_retries` default of `_make_llm_request`. -/
def maxRetries : Nat := 3

/-- The `except Exception` handler: sleep/double the backoff unless this was
the last attempt, and increment `attempt`. -/
def onException (st : LoopState) : LoopState :=
  if st.attempt < maxRetries - 1 then ⟨st.attempt + 1, st.backoff * 2⟩
  else ⟨st.attempt + 1, st.backoff⟩

/-- What `_make_llm_request` returns. -/
inductive LLMResult where
  | parsed
  | fallback
deriving DecidableEq

/-- The retry loop of `_make_llm_request`, one constructor case per
iteration.  `iter` counts iterations (response `iter` is consumed by
iteration `iter`); `fuel` bounds how many iterations we unfold, `none`
meaning the loop is still running after `fuel` iterations.  Crucially,
per the source, only the `except Exception` path increments `attempt`:
the `json.JSONDecodeError` handler and the invalid-format fall-through
leave the state unchanged. -/
def llmLoop (stream : Nat → LLMResponse) : Nat → LoopState → Nat → Option LLMResult
  | _, _, 0 => none
  | iter, st, fuel + 1 =>
    if st.attempt < maxRetries then
      match stream iter with
      | .valid => some .parsed
      | .badJson => llmLoop stream (iter + 1) st fuel
      | .invalidFormat => llmLoop stream (iter + 1) st fuel
      | .exn => llmLoop stream (iter + 1) (onException st) fuel
      | .emptyText => llmLoop stream (iter + 1) (onException st) fuel
    else some .fallback

/-- `_make_llm_request`: without an API key return the fallback dict at
once; otherwise run the retry loop from `attempt = 0`, `backoff = 1`. -/
def _make_llm_request (apiKey : Option String) (stream : Nat → LLMResponse)
    (fuel : Nat) : Option LLMResult :=
  match apiKey with
  | none => some .fallback
  | some _ => llmLoop stream 0 ⟨0, 1⟩ fuel

end IntelligentParser

namespace Database

/-- A row of the `listings` table exactly as `database/model.py` declares it
(server-filled `id`, `added_at` and `updated_at` timestamps omitted):
there are no `city`, `country` or `region` columns. -/
structure ListingRow where
  company_id : Nat
  job_board_id : Nat
  title : String
  location : Option String
  description : Option String
  link : String
  date_posted : Option String
deriving DecidableEq

/-- The attribute names of the `Listing` declarative class
(`database/model.py`): its columns plus its ORM relationship attributes. -/
def listingAttrNames : List String :=
  ["id", "company_id", "job_board_id", "title", "location", "description",
   "link", "date_posted", "added_at", "updated_at", "company", "job_board"]

/-- The keyword arguments passed to `Listing(...)` by `update_job_listings`
(`database/functions.py`), in source order. -/
def listingCtorKeys : List String :=
  ["title", "link", "location", "city", "country", "region",
   "date_posted", "description", "company_id", "job_board_id"]

/-- SQLAlchemy's declarative constructor raises `TypeError` at the first
keyword argument that is not an attribute of the class; this is that
argument, if any. -/
def invalidListingKwarg : Option String :=
  listingCtorKeys.find? (fun k => !(listingAttrNames.contains k))

/-- The relational store: `companies (id, name)`, `job_boards (id, link)`
(the columns the adapter touches) and `listings`. -/
structure DB where
  companies : List (Nat × String)
  job_boards : List (Nat × String)
  listings : List ListingRow
deriving DecidableEq

/-- The session during `update_job_listings`: the committed store plus
rows flushed in the current transaction.  Queries on the session see
committed and pending rows; `rollback` discards the pending rows;
`commit` makes them durable. -/
structure SessionState where
  committed : DB
  pendingCompanies : List (Nat × String)
  pendingListings : List ListingRow
  nextCompanyId : Nat
  successCount : Nat
  failureMessages : List String
deriving DecidableEq

/-- Rows of `companies` visible to queries on the session. -/
def sessionCompanies (s : SessionState) : List (Nat × String) :=
  s.committed.companies ++ s.pendingCompanies

/-- Rows of `listings` visible to queries (and uniqueness checks) on the
session. -/
def sessionListings (s : SessionState) : List ListingRow :=
  s.committed.listings ++ s.pendingListings

/-- `db_session.rollback()`: discard everything flushed since the last
commit (there are no per-record savepoints in the source). -/
def rollback (s : SessionState) : SessionState :=
  { s with pendingCompanies := [], pendingListings := [] }

/-- `db_session.commit()`: make the pending rows durable. -/
def commitSession (s : SessionState) : DB :=
  { s.committed with
    companies := s.committed.companies ++ s.pendingCompanies
    listings := s.committed.listings ++ s.pendingListings }

/-- Record a failure message and continue with the next record. -/
def addFailure (s : SessionState) (msg : String) : SessionState :=
  { s with failureMessages := s.failureMessages ++ [msg] }

/-- `_get_or_create_company` (`database/functions.py`): query by name on the
session; on a miss, add and flush a new company (the flush succeeds in a
single-session run, since the name was just queried). -/
def _get_or_create_company (s : SessionState) (name : String) : SessionState × Nat :=
  match (sessionCompanies s).find? (fun p => p.2 = name) with
  | some p => (s, p.1)
  | none =>
      let cid := s.nextCompanyId
      ({ s with
          pendingCompanies := s.pendingCompanies ++ [(cid, name)]
          nextCompanyId := cid + 1 }, cid)

/-- The uniqueness constraints of `listings` checked when a new row is
flushed: `link` unique, and `(title, company_id, link)` unique. -/
def violatesListingConstraints (s : SessionState) (row : ListingRow) : Bool :=
  (sessionListings s).any (fun r => r.link = row.link) ||
  (sessionListings s).any
    (fun r => r.title = row.title && r.company_id = row.company_id && r.link = row.link)

/-- The body of the `for job_data in all_job_data` loop of
`update_job_listings` (`database/functions.py`), for one record.  `pd`
models `datetime.fromisoformat` (`none` = `ValueError`).  Validation
failures and per-record exceptions append a message and continue; the
`IntegrityError` and generic `except` branches call `rollback` on the
whole session. -/
def processJobData (pd : String → Option String) (s : SessionState) (job : JobRec) :
    SessionState :=
  if ¬(truthy job.title ∧ truthy job.company_name ∧ truthy job.url ∧
        truthy job.job_board_url) then
    addFailure s "missing required data"
  else
    let dateParsed : Option (Option String) :=
      match job.date_posted_parsed with
      | none => some none
      | some d => match pd d with
        | none => none
        | some v => some (some v)
    match dateParsed with
    | none => addFailure s "could not convert posted date"
    | some dp =>
        let sc := _get_or_create_company s (job.company_name.getD "")
        match sc.1.committed.job_boards.find? (fun p => p.2 = job.job_board_url.getD "") with
        | none => addFailure sc.1 "job board not found"
        | some jb =>
            match invalidListingKwarg with
            | some _ =>
                -- `Listing(...)` raises `TypeError` (its class lacks the
                -- keyword's attribute): generic `except Exception` branch.
                addFailure (rollback sc.1) "error saving job"
            | none =>
                let row : ListingRow :=
                  ⟨sc.2, jb.1, job.title.getD "", job.location_parsed,
                   job.description, job.url.getD "", dp⟩
                if violatesListingConstraints sc.1 row then
                  addFailure (rollback sc.1) "duplicate entry"
                else
                  { sc.1 with
                    pendingListings := sc.1.pendingListings ++ [row]
                    successCount := sc.1.successCount + 1 }

/-- The tuple `update_job_listings` returns, with the statistics the message
string carries broken out, plus the resulting store. -/
structure UpdateResult where
  success : Bool
  successCount : Nat
  failures : List String
  db : DB
deriving DecidableEq

/-- A fresh id for the session's inserts. -/
def freshId (l : List (Nat × String)) : Nat :=
  (l.map (fun p => p.1)).foldr max 0 + 1

/-- `update_job_listings` (`database/functions.py`): run the per-record loop
over the batch on one session, commit, and return success with the
statistics.  The `return False` branch fires only when an exception
escapes the loop or the final commit, which has no source inside the
modelled loop (every per-record error is caught and recorded). -/
def update_job_listings (pd : String → Option String) (all_job_data : List JobRec)
    (db : DB) : UpdateResult :=
  let init : SessionState := ⟨db, [], [], freshId db.companies, 0, []⟩
  let final := all_job_data.foldl (processJobData pd) init
  ⟨true, final.successCount, final.failureMessages, commitSession final⟩

end Database

namespace Concurrency

/-- `JOB_DETAIL_CONCURRENCY` (`scraper/common/config.py`). -/
def JOB_DETAIL_CONCURRENCY : Nat := 10

/-- The state of one detail task with respect to the semaphore and its
browsing context, following `process_single_job`: a task waits for a
permit, then (holding the permit) alternates between having its context
open and closed — the context is created only after the `async with
semaphore` entry and closed in the `finally` block before the permit is
released — and finally releases the permit. -/
inductive TaskState where
  | waiting
  | holding (ctxOpen : Bool)
  | done
deriving DecidableEq

/-- Number of tasks currently holding a semaphore permit. -/
def holdersCount (ts : List TaskState) : Nat :=
  ts.countP (fun t => match t with | .holding _ => true | _ => false)

/-- Number of simultaneously open browsing contexts. -/
def openContexts (ts : List TaskState) : Nat :=
  ts.countP (fun t => t = TaskState.holding true)

/-- One interleaving step of the detail-fetch phase: a waiting task may
acquire a permit only while fewer than `cap` are held
(`asyncio.Semaphore(cap)`); a permit holder may open its context, close
it (each retry attempt opens and closes again), or — with its context
closed — terminate, releasing the permit. -/
inductive SemStep (cap : Nat) : List TaskState → List TaskState → Prop where
  | acquire (l r : List TaskState) :
      holdersCount (l ++ TaskState.waiting :: r) < cap →
      SemStep cap (l ++ TaskState.waiting :: r) (l ++ TaskState.holding false :: r)
  | openCtx (l r : List TaskState) :
      SemStep cap (l ++ TaskState.holding false :: r) (l ++ TaskState.holding true :: r)
  | closeCtx (l r : List TaskState) :
      SemStep cap (l ++ TaskState.holding true :: r) (l ++ TaskState.holding false :: r)
  | release (l r : List TaskState) :
      SemStep cap (l ++ TaskState.holding false :: r) (l ++ TaskState.done :: r)

/-- Reachability under the interleaving semantics. -/
inductive Reaches (cap : Nat) : List TaskState → List TaskState → Prop where
  | refl (ts : List TaskState) : Reaches cap ts ts
  | tail {a b c : List TaskState} : Reaches cap a b → SemStep cap b c → Reaches cap a c

end Concurrency

/-! ### Concrete instances used to evaluate the code on specific inputs -/

/-- A record whose raw date carries the 30+-days marker. -/
def jobOld : JobRec :=
  { JobRec.empty with
    url := some "https://co.wd.com/en/job/9"
    date_posted_raw := some "Posted 30+ Days Ago" }

/-- A summary as `WorkdayScraper._extract_job_summaries` builds it
(its dictionaries carry exactly the six summary keys). -/
def sumTrader : JobRec :=
  { JobRec.empty with
    title := some "Trader"
    detail_url := some "https://co.wd.com/en/job/1"
    location_raw := some "Locations: London, UK"
    location_parsed := some "London, UK"
    date_posted_raw := some "Posted Today"
    date_posted_parsed := some "2026-01-01" }

/-- Detail environment in which every navigation succeeds and the page
yields a description but no title or job-id element. -/
def envAllLoaded : Nat → Nat → AttemptOutcome :=
  fun _ _ => .fetched (.loaded none (some "Great role") none)

/-- The record the pipeline produces for `sumTrader` under `envAllLoaded`. -/
def recTrader : JobRec :=
  { sumTrader with
    job_board_url := some "https://co.wd.com"
    url := some "https://co.wd.com/en/job/1"
    description := some "Great role"
    job_id := some "N/A"
    detail_page_title := some "N/A"
    company_name := some "Acme" }

/-- A summary for the detail-timeout scenario. -/
def sumAnalyst : JobRec :=
  { JobRec.empty with
    title := some "Analyst"
    detail_url := some "https://co.wd.com/en/job/2"
    date_posted_raw := some "Posted Today" }

/-- Environment in which every attempt's `page.goto` /
`wait_for_selector` inside `fetch_job_details` times out. -/
def envNavTimeout : Nat → AttemptOutcome := fun _ => .fetched .timeout

/-- Environment in which every attempt raises a Playwright timeout at
context creation, i.e. before `fetch_job_details` runs — the only kind of
timeout the retry loop of `process_single_job` ever observes. -/
def envCtxTimeout : Nat → AttemptOutcome := fun _ => .ctxTimeout

/-- The record `process_single_job` returns for `sumAnalyst` under
`envNavTimeout`: the first attempt "succeeds" with placeholder fields. -/
def recAnalystPlaceholder : JobRec :=
  { sumAnalyst with
    url := some "https://co.wd.com/en/job/2"
    description := some "N/A"
    job_id := some "N/A"
    detail_page_title := some "N/A"
    company_name := some "Acme" }

/-- A store holding one pre-provisioned job board and nothing else. -/
def dbOneBoard : Database.DB := ⟨[], [(1, "https://board.example")], []⟩

/-- A fully valid job record (all required fields, intelligent location
data attached, no date so no date parsing is involved). -/
def jobLondon : JobRec :=
  { JobRec.empty with
    title := some "Trader"
    company_name := some "Acme"
    url := some "https://co.wd.com/en/job/1"
    job_board_url := some "https://board.example"
    location_parsed := some "London, UK"
    location_parsed_intelligent := some ⟨"London", "United Kingdom", "Europe", 1⟩ }

/-- A second valid record with a distinct link and title. -/
def jobParis : JobRec :=
  { JobRec.empty with
    title := some "Analyst"
    company_name := some "Acme"
    url := some "https://co.wd.com/en/job/2"
    job_board_url := some "https://board.example"
    location_parsed := some "Paris, France"
    location_parsed_intelligent := some ⟨"Paris", "France", "Europe", 1⟩ }

/-- Three pipeline records over two distinct URLs, none date-filtered,
used to instantiate the dedup property. -/
def dedupSample : List JobRec :=
  [{ JobRec.empty with url := some "https://co.wd.com/en/job/1", title := some "A" },
   { JobRec.empty with url := some "https://co.wd.com/en/job/2", title := some "B" },
   { JobRec.empty with url := some "https://co.wd.com/en/job/1", title := some "C" }]

/-! ### Helper lemmas -/

theorem dropWhile_idem {α : Type} (p : α → Bool) (l : List α) :
    (l.dropWhile p).dropWhile p = l.dropWhile p := by
  induction l with
  | nil => rfl
  | cons a l ih =>
      by_cases h : p a
      · simp [List.dropWhile_cons, h, ih]
      · simp [List.dropWhile_cons, h]

theorem dropWhile_length_le {α : Type} (p : α → Bool) (l : List α) :
    (l.dropWhile p).length ≤ l.length := by
  induction l with
  | nil => exact Nat.le_refl 0
  | cons a l ih =>
      by_cases h : p a
      · simp only [List.dropWhile_cons, if_pos h, List.length_cons]
        omega
      · simp [List.dropWhile_cons, if_neg h]

theorem head_false_of_dropWhile_fix {α : Type} {p : α → Bool} {l : List α}
    (h : l.dropWhile p = l) : ∀ {a : α} {t : List α}, l = a :: t → p a = false := by
  intro a t he
  subst he
  by_cases hp : p a
  · rw [List.dropWhile_cons, if_pos hp] at h
    have hlen := congrArg List.length h
    have hle := dropWhile_length_le p t
    simp at hlen
    omega
  · exact Bool.of_not_eq_true hp

theorem exists_dropWhile_suffix {α : Type} (p : α → Bool) (l : List α) :
    ∃ t, l = t ++ l.dropWhile p := by
  induction l with
  | nil => exact ⟨[], rfl⟩
  | cons a l ih =>
      by_cases h : p a
      · obtain ⟨t, ht⟩ := ih
        exact ⟨a :: t, by simp [List.dropWhile_cons, h]; exact ht⟩
      · exact ⟨[], by simp [List.dropWhile_cons, h]⟩

theorem dropWhile_fix_of_append {α : Type} {p : α → Bool} {A C r : List α}
    (hA : A.dropWhile p = A) (hr : C ++ r = A) : C.dropWhile p = C := by
  cases C with
  | nil => rfl
  | cons c cs =>
      have hform : A = c :: (cs ++ r) := by rw [← hr]; rfl
      have hc : p c = false := head_false_of_dropWhile_fix hA hform
      simp [List.dropWhile_cons, hc]

theorem pyStrip_idem (l : List Char) : pyStrip (pyStrip l) = pyStrip l := by
  unfold pyStrip
  have hA : (l.dropWhile pyIsSpace).dropWhile pyIsSpace = l.dropWhile pyIsSpace :=
    dropWhile_idem pyIsSpace l
  obtain ⟨t, ht⟩ := exists_dropWhile_suffix pyIsSpace (l.dropWhile pyIsSpace).reverse
  have hpre :
      ((l.dropWhile pyIsSpace).reverse.dropWhile pyIsSpace).reverse ++ t.reverse =
        l.dropWhile pyIsSpace := by
    rw [← List.reverse_append, ← ht, List.reverse_reverse]
  have hfrontFix :
      ((l.dropWhile pyIsSpace).reverse.dropWhile pyIsSpace).reverse.dropWhile pyIsSpace =
        ((l.dropWhile pyIsSpace).reverse.dropWhile pyIsSpace).reverse :=
    dropWhile_fix_of_append hA hpre
  rw [hfrontFix, List.reverse_reverse, dropWhile_idem]

theorem filterAux_eq_keepFirst (js : List JobRec) :
    ∀ seen : List (Option String), (∀ j ∈ js, postedOld j = false) →
      filterJobDataAux seen js = keepFirstByUrl seen js := by
  induction js with
  | nil => intro seen _; rfl
  | cons j rest ih =>
      intro seen h
      have hj : postedOld j = false := h j (List.mem_cons_self j rest)
      have hrest : ∀ x ∈ rest, postedOld x = false :=
        fun x hx => h x (List.mem_cons_of_mem j hx)
      by_cases hmem : j.url ∈ seen
      · simp [filterJobDataAux, keepFirstByUrl, hmem, ih seen hrest]
      · simp [filterJobDataAux, keepFirstByUrl, hmem, hj, ih (j.url :: seen) hrest]

theorem keepFirst_sublist (js : List JobRec) :
    ∀ seen : List (Option String), (keepFirstByUrl seen js).Sublist js := by
  induction js with
  | nil => intro seen; exact List.Sublist.refl []
  | cons j rest ih =>
      intro seen
      by_cases hmem : j.url ∈ seen
      · simpa [keepFirstByUrl, hmem] using List.Sublist.cons j (ih seen)
      · simpa [keepFirstByUrl, hmem] using List.Sublist.cons₂ j (ih (j.url :: seen))

theorem keepFirst_length (js : List JobRec) :
    ∀ seen : List (Option String),
      (keepFirstByUrl seen js).length =
        ((js.map (fun j => j.url)).toFinset \ seen.toFinset).card := by
  induction js with
  | nil => intro seen; simp [keepFirstByUrl]
  | cons j rest ih =>
      intro seen
      by_cases hmem : j.url ∈ seen
      · rw [List.map_cons, List.toFinset_cons,
          Finset.insert_sdiff_of_mem _ (List.mem_toFinset.mpr hmem)]
        simpa [keepFirstByUrl, hmem] using ih seen
      · have hne : j.url ∉ seen.toFinset := fun hc => hmem (List.mem_toFinset.mp hc)
        rw [List.map_cons, List.toFinset_cons, Finset.insert_sdiff_of_not_mem _ hne]
        have hstep := ih (j.url :: seen)
        rw [List.toFinset_cons, Finset.sdiff_insert] at hstep
        have hrw : keepFirstByUrl seen (j :: rest) =
            j :: keepFirstByUrl (j.url :: seen) rest := by
          simp [keepFirstByUrl, hmem]
        rw [hrw, List.length_cons, hstep]
        by_cases hu : j.url ∈ (rest.map (fun j => j.url)).toFinset \ seen.toFinset
        · rw [Finset.card_erase_of_mem hu, Finset.insert_eq_self.mpr hu]
          have hpos := Finset.card_pos.mpr ⟨j.url, hu⟩
          omega
        · rw [Finset.erase_eq_of_not_mem hu, Finset.card_insert_of_not_mem hu]

theorem filterAux_nones (js : List JobRec) :
    ∀ seen : List (Option String),
      (filterJobDataAux seen js).filter (fun j => j.url.isNone) =
        (if (none : Option String) ∈ seen then []
         else
           match js.filter (fun j => j.url.isNone) with
           | [] => []
           | j :: _ => if postedOld j then [] else [j]) := by
  induction js with
  | nil =>
      intro seen
      by_cases hn : (none : Option String) ∈ seen <;> simp [filterJobDataAux, hn]
  | cons j rest ih =>
      intro seen
      by_cases hmem : j.url ∈ seen
      · have hnotnone : (none : Option String) ∈ seen → True := fun _ => trivial
        rw [show filterJobDataAux seen (j :: rest) = filterJobDataAux seen rest by
          simp [filterJobDataAux, hmem]]
        rw [ih seen]
        by_cases hn : (none : Option String) ∈ seen
        · simp [hn]
        · have hjurl : j.url.isNone = false := by
            cases hu : j.url with
            | none => exact absurd (hu ▸ hmem) hn
            | some u => rfl
          simp [hn, List.filter_cons, hjurl]
      · by_cases hold : postedOld j
        · rw [show filterJobDataAux seen (j :: rest) = filterJobDataAux (j.url :: seen) rest by
            simp [filterJobDataAux, hmem, hold]]
          rw [ih (j.url :: seen)]
          cases hu : j.url with
          | none =>
              have hn : (none : Option String) ∉ seen := hu ▸ hmem
              simp [hn, List.filter_cons, hu, hold]
          | some u =>
              by_cases hn : (none : Option String) ∈ seen
              · simp [hn, hu]
              · have hjurl : j.url.isNone = false := by rw [hu]; rfl
                simp [hn, hu, List.filter_cons, hjurl]
        · rw [show filterJobDataAux seen (j :: rest) =
              j :: filterJobDataAux (j.url :: seen) rest by
            simp [filterJobDataAux, hmem, hold]]
          rw [List.filter_cons, ih (j.url :: seen)]
          cases hu : j.url with
          | none =>
              have hn : (none : Option String) ∉ seen := hu ▸ hmem
              simp [hn, List.filter_cons, hu, hold]
          | some u =>
              by_cases hn : (none : Option String) ∈ seen
              · simp [hn, hu]
              · have hjurl : j.url.isNone = false := by rw [hu]; rfl
                simp [hn, hu, List.filter_cons, hjurl]

theorem openContexts_le_holders (ts : List Concurrency.TaskState) :
    Concurrency.openContexts ts ≤ Concurrency.holdersCount ts := by
  apply List.countP_mono_left
  intro t _ h
  have ht : t = Concurrency.TaskState.holding true := of_decide_eq_true h
  subst ht
  rfl

theorem reach_holders_le {cap : Nat} {init ts : List Concurrency.TaskState}
    (h0 : Concurrency.holdersCount init ≤ cap)
    (h : Concurrency.Reaches cap init ts) : Concurrency.holdersCount ts ≤ cap := by
  induction h with
  | refl => exact h0
  | tail _ hs ih =>
      cases hs with
      | acquire l r hg =>
          simp [Concurrency.holdersCount, List.countP_append, List.countP_cons] at hg ⊢
          omega
      | openCtx l r =>
          simp [Concurrency.holdersCount, List.countP_append, List.countP_cons] at ih ⊢
          omega
      | closeCtx l r =>
          simp [Concurrency.holdersCount, List.countP_append, List.countP_cons] at ih ⊢
          omega
      | release l r =>
          simp [Concurrency.holdersCount, List.countP_append, List.countP_cons] at ih ⊢
          omega

theorem llmLoop_badJson_runs_forever (fuel : Nat) :
    ∀ iter : Nat,
      IntelligentParser.llmLoop (fun _ => IntelligentParser.LLMResponse.badJson) iter
        ⟨0, 1⟩ fuel = none := by
  induction fuel with
  | zero => intro iter; rfl
  | succ n ih =>
      intro iter
      simpa [IntelligentParser.llmLoop, IntelligentParser.maxRetries] using ih (iter + 1)

/-! ### Claim theorems -/

/-- Claim C8 counterexample: `parse_location` is not idempotent.  On
`"locations locations"` one application strips a single `locations` word,
leaving `"locations"`, and a second application strips that too — for
both the Workday parser's variant and the `utils.py` variant. -/
theorem c8_parse_location_not_idempotent :
    (WorkdayParser.parse_location (WorkdayParser.parse_location "locations locations") ≠
      WorkdayParser.parse_location "locations locations") ∧
    (Utils.parse_location (Utils.parse_location "locations locations") ≠
      Utils.parse_location "locations locations") := by
  decide

/-- Claim C8 (amended): `parse_location` is idempotent on every input whose
parsed result does not itself start with the `locations` pattern again
(for the Workday variant, after optional leading whitespace); on such
outputs a second application only re-trims an already-trimmed string. -/
theorem c8_parse_location_idempotent_when_no_tag_remains (s : String) :
    ((matchLiteralCI locationsPat
        ((WorkdayParser.parse_location s).data.dropWhile pyIsSpace)).isNone = true →
      WorkdayParser.parse_location (WorkdayParser.parse_location s) =
        WorkdayParser.parse_location s) ∧
    ((matchLiteralCI locationsPat (Utils.parse_location s).data).isNone = true →
      Utils.parse_location (Utils.parse_location s) = Utils.parse_location s) := by
  constructor
  · intro h
    by_cases hs : s = ""
    · subst hs; rfl
    · by_cases ht : WorkdayParser.parse_location s = ""
      · rw [ht]; rfl
      · have hmatch :
            matchLiteralCI locationsPat
              ((WorkdayParser.parse_location s).data.dropWhile pyIsSpace) = none :=
          Option.isNone_iff_eq_none.mp h
        have hdata : (WorkdayParser.parse_location s).data =
            pyStrip (WorkdayParser.stripLocationsSub s.data) := by
          rw [WorkdayParser.parse_location, if_neg hs]
        rw [WorkdayParser.parse_location, if_neg ht, WorkdayParser.stripLocationsSub, hmatch,
          hdata, pyStrip_idem]
        exact String.ext hdata.symm
  · intro h
    by_cases hs : s = ""
    · subst hs; rfl
    · by_cases ht : Utils.parse_location s = ""
      · rw [ht]; rfl
      · have hmatch :
            matchLiteralCI locationsPat (Utils.parse_location s).data = none :=
          Option.isNone_iff_eq_none.mp h
        have hdata : (Utils.parse_location s).data =
            pyStrip (Utils.stripLocationsSub s.data) := by
          rw [Utils.parse_location, if_neg hs]
        rw [Utils.parse_location, if_neg ht, Utils.stripLocationsSub, hmatch,
          hdata, pyStrip_idem]
        exact String.ext hdata.symm

/-- Claim C8 witness: idempotence at `"London, UK"`, whose parse does not
start with the `locations` word. -/
theorem c8_idempotent_witness :
    WorkdayParser.parse_location (WorkdayParser.parse_location "London, UK") =
      WorkdayParser.parse_location "London, UK" :=
  (c8_parse_location_idempotent_when_no_tag_remains "London, UK").1 (by decide)

/-- Claim C1: the `Listing` model of `database/model.py` exposes no `city`,
`country` or `region` attribute, while `update_job_listings` passes
exactly those keyword arguments to `Listing(...)` — so the constructor
raises `TypeError` and, evaluated on a fully valid record carrying
intelligent location data, the adapter persists nothing and records one
failure. -/
theorem c1_listing_lacks_location_columns :
    Database.invalidListingKwarg = some "city" ∧
    ("city" ∉ Database.listingAttrNames ∧ "country" ∉ Database.listingAttrNames ∧
      "region" ∉ Database.listingAttrNames) ∧
    ("city" ∈ Database.listingCtorKeys ∧ "country" ∈ Database.listingCtorKeys ∧
      "region" ∈ Database.listingCtorKeys) ∧
    (Database.update_job_listings (fun d => some d) [jobLondon] dbOneBoard).db.listings = [] ∧
    (Database.update_job_listings (fun d => some d) [jobLondon] dbOneBoard).successCount = 0 ∧
    (Database.update_job_listings (fun d => some d) [jobLondon] dbOneBoard).failures.length = 1 := by
  decide

/-- Claim C2: evaluating the per-board pipeline (summary enrichment,
parallel detail fetch, filtering) on a Workday summary under an
environment where every fetch succeeds: the single surviving record has
no `location_parsed_intelligent` key — the pipeline in `scraper/main.py`
never invokes `BatchJobProcessor.enhance_job_with_cached_data`, which is
the only code that sets it. -/
theorem c2_pipeline_record_lacks_intelligent_location :
    scraperPipeline envAllLoaded "Acme" "https://co.wd.com" [sumTrader] = [recTrader] ∧
    recTrader.location_parsed_intelligent = none := by
  decide

/-- Claim C3 counterexample: a detail task whose page navigation times out
on every attempt is NOT retried and NOT dropped — `fetch_job_details`
catches the timeout internally and returns placeholders, so the first
attempt "succeeds" and the job survives filtering with `"N/A"` fields. -/
theorem c3_nav_timeout_yields_placeholder_record :
    process_single_job envNavTimeout sumAnalyst "Acme" = some recAnalystPlaceholder ∧
    recAnalystPlaceholder.description = some "N/A" ∧
    filter_job_data [recAnalystPlaceholder] = [recAnalystPlaceholder] := by
  decide

/-- Claim C3 (amended): the 3-attempt retry policy of `process_single_job`
applies only to exceptions that reach its loop (e.g. timeouts raised while
creating the browsing context): such a task returns `None` after three
failed attempts and is dropped.  A navigation or loading timeout inside
`fetch_job_details` is swallowed there: the task returns, on its first
attempt, the merged record with placeholder detail fields. -/
theorem c3_retry_only_for_loop_level_errors (env : Nat → AttemptOutcome) (s : JobRec)
    (c u : String) (hu : s.detail_url = some u) (hne : u ≠ "") (hna : u ≠ "N/A") :
    ((∀ n, env n = AttemptOutcome.ctxTimeout) → process_single_job env s c = none) ∧
    (∀ nav, env 0 = AttemptOutcome.fetched nav →
      process_single_job env s c =
        some (mergeDetail s (Workday.scraperFetchJobDetails u nav) c)) := by
  constructor
  · intro hall
    simp [process_single_job, hu, hne, hna, processAttempts, hall]
  · intro nav h0
    simp [process_single_job, hu, hne, hna, processAttempts, h0]

/-- Claim C3 witness: with every attempt timing out at context creation,
the task yields `None` after its three attempts. -/
theorem c3_retry_witness : process_single_job envCtxTimeout sumAnalyst "Acme" = none :=
  (c3_retry_only_for_loop_level_errors envCtxTimeout sumAnalyst "Acme"
    "https://co.wd.com/en/job/2" rfl (by decide) (by decide)).1 (fun _ => rfl)

/-- Claim C4: evaluated on a batch of two fully valid records with distinct
links against a store holding the board, `update_job_listings` reports
success with `success_count = 0`, two failure messages, and zero durable
rows — no record is ever inserted (the `Listing` constructor rejects the
`city` keyword), so the claimed per-record rollback isolation and the
`success_count = durable rows` accounting never materialise. -/
theorem c4_no_record_ever_persisted :
    (Database.update_job_listings (fun d => some d) [jobLondon, jobParis] dbOneBoard).success
        = true ∧
    (Database.update_job_listings (fun d => some d) [jobLondon, jobParis] dbOneBoard).successCount
        = 0 ∧
    (Database.update_job_listings (fun d => some d) [jobLondon, jobParis] dbOneBoard).db.listings
        = [] ∧
    (Database.update_job_listings (fun d => some d) [jobLondon, jobParis]
        dbOneBoard).failures.length = 2 := by
  decide

/-- Claim C5: `_make_llm_request` does NOT terminate within 3 attempts for
every response sequence: when every response is malformed JSON, the
`json.JSONDecodeError` handler never increments `attempt`, so the
`while attempt < max_retries` loop runs forever — for every iteration
bound `fuel`, the loop is still running. -/
theorem c5_llm_retry_loop_diverges_on_malformed_json :
    ∀ fuel : Nat,
      IntelligentParser._make_llm_request (some "key")
        (fun _ => IntelligentParser.LLMResponse.badJson) fuel = none :=
  fun fuel => llmLoop_badJson_runs_forever fuel 0

/-- Claim C6 counterexample: one record, one distinct URL (`K = 1`), but its
raw date carries the 30+-days marker, so filtering yields 0 records, not
`K`. -/
theorem c6_date_filter_breaks_dedup_count :
    (([jobOld].map (fun j => j.url)).dedup.length = 1) ∧ filter_job_data [jobOld] = [] := by
  decide

/-- Claim C6 (amended): for job lists in which no record's raw date contains
`posted 30+ days ago`, `filter_job_data` returns exactly the first
occurrence of each distinct `url` value, in first-occurrence order (a
sublist of the input whose length is the number `K` of distinct URL
values). -/
theorem c6_dedup_first_occurrence_without_old_marker (js : List JobRec)
    (h : ∀ j ∈ js, postedOld j = false) :
    filter_job_data js = keepFirstByUrl [] js ∧
    (filter_job_data js).length = (js.map (fun j => j.url)).dedup.length ∧
    (filter_job_data js).Sublist js := by
  have he : filter_job_data js = keepFirstByUrl [] js := filterAux_eq_keepFirst js [] h
  refine ⟨he, ?_, ?_⟩
  · rw [he, keepFirst_length js []]
    simp [List.card_toFinset]
  · rw [he]
    exact keepFirst_sublist js []

/-- Claim C6 witness: on three records over two URLs the filter keeps the
first occurrences. -/
theorem c6_dedup_witness : filter_job_data dedupSample = keepFirstByUrl [] dedupSample :=
  (c6_dedup_first_occurrence_without_old_marker dedupSample (by decide)).1

/-- Claim C7: under the interleaving semantics of the detail-fetch phase —
a context is opened only while its task holds a semaphore permit, and
closed before the permit is released — every state reachable from the
initial all-waiting state keeps the number of simultaneously open
browsing contexts within `JOB_DETAIL_CONCURRENCY` (10). -/
theorem c7_open_contexts_bounded (n : Nat) (ts : List Concurrency.TaskState)
    (h : Concurrency.Reaches Concurrency.JOB_DETAIL_CONCURRENCY
      (List.replicate n Concurrency.TaskState.waiting) ts) :
    Concurrency.openContexts ts ≤ Concurrency.JOB_DETAIL_CONCURRENCY := by
  have h0 : Concurrency.holdersCount (List.replicate n Concurrency.TaskState.waiting)
      ≤ Concurrency.JOB_DETAIL_CONCURRENCY := by
    have hz : Concurrency.holdersCount (List.replicate n Concurrency.TaskState.waiting) = 0 := by
      apply List.countP_eq_zero.mpr
      intro a ha
      rw [List.eq_of_mem_replicate ha]
      exact Bool.false_ne_true
    rw [hz]
    exact Nat.zero_le _
  exact Nat.le_trans (openContexts_le_holders ts) (reach_holders_le h0 h)

/-- Claim C7 witness: one task that acquired the permit and opened its
context, reached in two steps from the initial state. -/
theorem c7_open_contexts_bounded_witness :
    Concurrency.openContexts [Concurrency.TaskState.holding true] ≤
      Concurrency.JOB_DETAIL_CONCURRENCY :=
  c7_open_contexts_bounded 1 [Concurrency.TaskState.holding true]
    (Concurrency.Reaches.tail
      (Concurrency.Reaches.tail (Concurrency.Reaches.refl _)
        (Concurrency.SemStep.acquire [] [] (by decide)))
      (Concurrency.SemStep.openCtx [] []))

/-- Claim C9: `update_job_listings` returns `success = True` for every
batch and every initial store, however many records fail validation or
insertion — the per-record loop catches every failure and records a
message; the `False` branch corresponds only to an exception escaping
the loop or the final commit, which no modelled path produces. -/
theorem c9_update_job_listings_always_true (pd : String → Option String)
    (jobs : List JobRec) (db : Database.DB) :
    (Database.update_job_listings pd jobs db).success = true := rfl

/-- Claim C10: in `filter_job_data`, all records lacking a `url` key share
the single `None` entry of `seen_urls`: among them only the first is ever
kept (and only if it passes the 30+-days date filter); every later one is
dropped as a duplicate, whatever its other fields. -/
theorem c10_missing_url_records_dedupe_together (js : List JobRec) :
    (filter_job_data js).filter (fun j => j.url.isNone) =
      (match js.filter (fun j => j.url.isNone) with
       | [] => []
       | j :: _ => if postedOld j then [] else [j]) := by
  have h := filterAux_nones js []
  simpa using h

end RoleAggr
